import Mathlib

/-
Verification of the decision-and-execution cycle of an automated
cryptocurrency trading script (auto_trader.py).

Shallow embedding conventions:
  * Python floats are modelled as exact rationals (ℚ).
  * Python's built-in `round` (round-half-to-even) is `roundHalfEven`.
  * A float column value that pandas leaves as NaN (rolling mean over a
    window longer than the series) is modelled as `Option ℚ` = `none`,
    and a `>` comparison against NaN is false (`nanGt`).
  * A Python call that may raise is modelled with `PyResult`; the
    behaviour of each external collaborator in one cycle is a field of
    `Collab`, so `trade_once` becomes a pure function of the collaborator
    behaviour.
  * The sqlite trade log is observed as the list of rows appended during
    the cycle (`CycleTrace.logs`); the order submission attempt and its
    truthiness, and the branch taken, are also recorded in the trace.
-/

namespace AutoTrader

/-- Python's built-in `round` to an integer: round half to even. -/
def roundHalfEven (q : ℚ) : ℤ :=
  if q - ⌊q⌋ < 1/2 then ⌊q⌋
  else if 1/2 < q - ⌊q⌋ then ⌊q⌋ + 1
  else if ⌊q⌋ % 2 = 0 then ⌊q⌋ else ⌊q⌋ + 1

/-- Rounding an integer returns that integer. -/
theorem roundHalfEven_intCast (n : ℤ) : roundHalfEven (n : ℚ) = n := by
  simp [roundHalfEven]

/-- The rounded value is within 1/2 of the input. -/
theorem abs_roundHalfEven_sub_le (q : ℚ) : |(roundHalfEven q : ℚ) - q| ≤ 1/2 := by
  have hfl : (⌊q⌋ : ℚ) ≤ q := Int.floor_le q
  have hfu : q < ⌊q⌋ + 1 := Int.lt_floor_add_one q
  unfold roundHalfEven
  split
  · next h => rw [abs_le]; constructor <;> linarith
  · next h =>
    have h1 : 1/2 ≤ q - ⌊q⌋ := le_of_not_lt h
    split
    · next h2 => push_cast; rw [abs_le]; constructor <;> linarith
    · next h2 =>
      have h3 : q - ⌊q⌋ ≤ 1/2 := le_of_not_lt h2
      split <;> (push_cast; rw [abs_le]; constructor <;> linarith)

/-- Monotone lower bound: an integer below the input bounds the rounding. -/
theorem le_roundHalfEven (n : ℤ) (q : ℚ) (h : (n : ℚ) ≤ q) : n ≤ roundHalfEven q := by
  have hn : n ≤ ⌊q⌋ := Int.le_floor.mpr h
  unfold roundHalfEven
  split
  · exact hn
  · split
    · omega
    · split <;> omega

/-- Monotone upper bound: an integer above the input bounds the rounding. -/
theorem roundHalfEven_le (n : ℤ) (q : ℚ) (h : q ≤ (n : ℚ)) : roundHalfEven q ≤ n := by
  have habs := abs_roundHalfEven_sub_le q
  rw [abs_le] at habs
  have : (roundHalfEven q : ℚ) < (n : ℚ) + 1 := by linarith [habs.2]
  exact_mod_cast Int.lt_add_one_iff.mp (by exact_mod_cast this)

/-- Rounding after dividing out an exact multiple recovers the multiplier. -/
theorem roundHalfEven_mul_div (m : ℤ) (inc : ℚ) (h : inc ≠ 0) :
    roundHalfEven ((m : ℚ) * inc / inc) = m := by
  rw [mul_div_assoc, div_self h, mul_one, roundHalfEven_intCast]

/-- Embedding of `adjust_price_to_tick` (auto_trader.py): rounds a raw
price to the Upbit price-tick increment of its price band. -/
def adjust_price_to_tick (price : ℚ) : ℚ :=
  if price ≥ 2000000 then (roundHalfEven (price / 1000) : ℚ) * 1000
  else if price ≥ 1000000 then (roundHalfEven (price / 500) : ℚ) * 500
  else if price ≥ 500000 then (roundHalfEven (price / 100) : ℚ) * 100
  else if price ≥ 100000 then (roundHalfEven (price / 50) : ℚ) * 50
  else if price ≥ 10000 then (roundHalfEven (price / 10) : ℚ) * 10
  else if price ≥ 1000 then (roundHalfEven (price / 5) : ℚ) * 5
  else (roundHalfEven price : ℚ)

/-- The price-tick increment of the band a price falls in, as in the
price-band table of the spec (the branch conditions of
`adjust_price_to_tick`). -/
def tickIncrement (price : ℚ) : ℚ :=
  if price ≥ 2000000 then 1000
  else if price ≥ 1000000 then 500
  else if price ≥ 500000 then 100
  else if price ≥ 100000 then 50
  else if price ≥ 10000 then 10
  else if price ≥ 1000 then 5
  else 1

example : adjust_price_to_tick 2000300 = 2000000 := by
  norm_num [adjust_price_to_tick, roundHalfEven]
example : adjust_price_to_tick 2000500 = 2000000 := by
  norm_num [adjust_price_to_tick, roundHalfEven]
example : adjust_price_to_tick 2001500 = 2002000 := by
  norm_num [adjust_price_to_tick, roundHalfEven]
example : adjust_price_to_tick (2/5) = 0 := by
  norm_num [adjust_price_to_tick, roundHalfEven]
example : adjust_price_to_tick 1999999 = 2000000 := by
  norm_num [adjust_price_to_tick, roundHalfEven]
example : adjust_price_to_tick (594/5) = 119 := by
  norm_num [adjust_price_to_tick, roundHalfEven]

/-- Rounding to a positive increment moves a value by at most half the
increment. -/
theorem adjust_branch_bound (x inc : ℚ) (hinc : 0 < inc) :
    |(roundHalfEven (x / inc) : ℚ) * inc - x| ≤ inc / 2 := by
  have h := abs_roundHalfEven_sub_le (x / inc)
  have hne : inc ≠ 0 := ne_of_gt hinc
  have hfac : (roundHalfEven (x / inc) : ℚ) * inc - x =
      ((roundHalfEven (x / inc) : ℚ) - x / inc) * inc := by
    field_simp
  rw [hfac, abs_mul, abs_of_pos hinc]
  calc |(roundHalfEven (x / inc) : ℚ) - x / inc| * inc ≤ (1/2) * inc :=
        mul_le_mul_of_nonneg_right h (le_of_lt hinc)
    _ = inc / 2 := by ring

theorem adjust_at_2000000 : adjust_price_to_tick 2000000 = 2000000 := by
  norm_num [adjust_price_to_tick, roundHalfEven]

theorem adjust_at_1000000 : adjust_price_to_tick 1000000 = 1000000 := by
  norm_num [adjust_price_to_tick, roundHalfEven]

theorem adjust_at_500000 : adjust_price_to_tick 500000 = 500000 := by
  norm_num [adjust_price_to_tick, roundHalfEven]

theorem adjust_at_100000 : adjust_price_to_tick 100000 = 100000 := by
  norm_num [adjust_price_to_tick, roundHalfEven]

theorem adjust_at_10000 : adjust_price_to_tick 10000 = 10000 := by
  norm_num [adjust_price_to_tick, roundHalfEven]

theorem adjust_at_1000 : adjust_price_to_tick 1000 = 1000 := by
  norm_num [adjust_price_to_tick, roundHalfEven]

/-- A multiple of 1000 that is at least 2,000,000 is a fixed point. -/
theorem adjust_fix_b1 (m : ℤ) (hlo : 2000000 ≤ (m : ℚ) * 1000) :
    adjust_price_to_tick ((m : ℚ) * 1000) = (m : ℚ) * 1000 := by
  unfold adjust_price_to_tick
  simp only [ge_iff_le]
  rw [if_pos hlo, roundHalfEven_mul_div m 1000 (by norm_num)]

/-- A multiple of 500 in the band [1,000,000, 2,000,000) is a fixed point. -/
theorem adjust_fix_b2 (m : ℤ) (hlo : 1000000 ≤ (m : ℚ) * 500)
    (hhi : (m : ℚ) * 500 < 2000000) :
    adjust_price_to_tick ((m : ℚ) * 500) = (m : ℚ) * 500 := by
  unfold adjust_price_to_tick
  simp only [ge_iff_le]
  rw [if_neg (not_le.mpr hhi), if_pos hlo, roundHalfEven_mul_div m 500 (by norm_num)]

/-- A multiple of 100 in the band [500,000, 1,000,000) is a fixed point. -/
theorem adjust_fix_b3 (m : ℤ) (hlo : 500000 ≤ (m : ℚ) * 100)
    (hhi : (m : ℚ) * 100 < 1000000) :
    adjust_price_to_tick ((m : ℚ) * 100) = (m : ℚ) * 100 := by
  unfold adjust_price_to_tick
  simp only [ge_iff_le]
  rw [if_neg (not_le.mpr (by linarith)), if_neg (not_le.mpr hhi), if_pos hlo,
    roundHalfEven_mul_div m 100 (by norm_num)]

/-- A multiple of 50 in the band [100,000, 500,000) is a fixed point. -/
theorem adjust_fix_b4 (m : ℤ) (hlo : 100000 ≤ (m : ℚ) * 50)
    (hhi : (m : ℚ) * 50 < 500000) :
    adjust_price_to_tick ((m : ℚ) * 50) = (m : ℚ) * 50 := by
  unfold adjust_price_to_tick
  simp only [ge_iff_le]
  rw [if_neg (not_le.mpr (by linarith)), if_neg (not_le.mpr (by linarith)),
    if_neg (not_le.mpr hhi), if_pos hlo, roundHalfEven_mul_div m 50 (by norm_num)]

/-- A multiple of 10 in the band [10,000, 100,000) is a fixed point. -/
theorem adjust_fix_b5 (m : ℤ) (hlo : 10000 ≤ (m : ℚ) * 10)
    (hhi : (m : ℚ) * 10 < 100000) :
    adjust_price_to_tick ((m : ℚ) * 10) = (m : ℚ) * 10 := by
  unfold adjust_price_to_tick
  simp only [ge_iff_le]
  rw [if_neg (not_le.mpr (by linarith)), if_neg (not_le.mpr (by linarith)),
    if_neg (not_le.mpr (by linarith)), if_neg (not_le.mpr hhi), if_pos hlo,
    roundHalfEven_mul_div m 10 (by norm_num)]

/-- A multiple of 5 in the band [1,000, 10,000) is a fixed point. -/
theorem adjust_fix_b6 (m : ℤ) (hlo : 1000 ≤ (m : ℚ) * 5)
    (hhi : (m : ℚ) * 5 < 10000) :
    adjust_price_to_tick ((m : ℚ) * 5) = (m : ℚ) * 5 := by
  unfold adjust_price_to_tick
  simp only [ge_iff_le]
  rw [if_neg (not_le.mpr (by linarith)), if_neg (not_le.mpr (by linarith)),
    if_neg (not_le.mpr (by linarith)), if_neg (not_le.mpr (by linarith)),
    if_neg (not_le.mpr hhi), if_pos hlo, roundHalfEven_mul_div m 5 (by norm_num)]

/-- An integer below 1,000 is a fixed point. -/
theorem adjust_fix_b7 (n : ℤ) (hhi : (n : ℚ) < 1000) :
    adjust_price_to_tick (n : ℚ) = (n : ℚ) := by
  unfold adjust_price_to_tick
  simp only [ge_iff_le]
  rw [if_neg (not_le.mpr (by linarith)), if_neg (not_le.mpr (by linarith)),
    if_neg (not_le.mpr (by linarith)), if_neg (not_le.mpr (by linarith)),
    if_neg (not_le.mpr (by linarith)), if_neg (not_le.mpr hhi),
    roundHalfEven_intCast]

/-- C5: for every price, `adjust_price_to_tick` returns an integer multiple
of the tick increment of the price's band and moves the price by at most
half that increment; in particular for prices at least 2,000,000 the result
is a multiple of 1,000 within 500 of the input. -/
theorem adjust_price_to_tick_tier (p : ℚ) :
    (∃ k : ℤ, adjust_price_to_tick p = (k : ℚ) * tickIncrement p) ∧
    |adjust_price_to_tick p - p| ≤ tickIncrement p / 2 ∧
    (2000000 ≤ p →
      (∃ k : ℤ, adjust_price_to_tick p = (k : ℚ) * 1000) ∧
      |adjust_price_to_tick p - p| ≤ 500) := by
  unfold adjust_price_to_tick tickIncrement
  simp only [ge_iff_le]
  split_ifs with h1 h2 h3 h4 h5 h6
  · refine ⟨⟨roundHalfEven (p / 1000), rfl⟩, adjust_branch_bound p 1000 (by norm_num), ?_⟩
    intro _
    refine ⟨⟨roundHalfEven (p / 1000), rfl⟩, ?_⟩
    have := adjust_branch_bound p 1000 (by norm_num)
    linarith
  · exact ⟨⟨roundHalfEven (p / 500), rfl⟩, adjust_branch_bound p 500 (by norm_num),
      fun hc => absurd hc h1⟩
  · exact ⟨⟨roundHalfEven (p / 100), rfl⟩, adjust_branch_bound p 100 (by norm_num),
      fun hc => absurd hc h1⟩
  · exact ⟨⟨roundHalfEven (p / 50), rfl⟩, adjust_branch_bound p 50 (by norm_num),
      fun hc => absurd hc h1⟩
  · exact ⟨⟨roundHalfEven (p / 10), rfl⟩, adjust_branch_bound p 10 (by norm_num),
      fun hc => absurd hc h1⟩
  · exact ⟨⟨roundHalfEven (p / 5), rfl⟩, adjust_branch_bound p 5 (by norm_num),
      fun hc => absurd hc h1⟩
  · refine ⟨⟨roundHalfEven p, by rw [mul_one]⟩, ?_, fun hc => absurd hc h1⟩
    simpa using abs_roundHalfEven_sub_le p

/-- C5 witness: the tier bound instantiated in the topmost band. -/
theorem adjust_price_to_tick_tier_witness :
    (∃ k : ℤ, adjust_price_to_tick 2500000 = (k : ℚ) * 1000) ∧
    |adjust_price_to_tick 2500000 - 2500000| ≤ 500 :=
  (adjust_price_to_tick_tier 2500000).2.2 (by norm_num)

/-- C6 counterexample: 2/5 is a positive price for which
`adjust_price_to_tick` returns 0, which is not positive. -/
theorem adjust_price_to_tick_pos_cex :
    (0 : ℚ) < 2/5 ∧ adjust_price_to_tick (2/5) = 0 := by
  constructor
  · norm_num
  · norm_num [adjust_price_to_tick, roundHalfEven]

/-- C6 amended: `adjust_price_to_tick` always returns a value, the value is
nonnegative for nonnegative inputs, and it is positive whenever the input
exceeds 1/2 (inputs in (0, 1/2] round down to 0). -/
theorem adjust_price_to_tick_pos (p : ℚ) :
    (0 ≤ p → 0 ≤ adjust_price_to_tick p) ∧
    (1/2 < p → 0 < adjust_price_to_tick p) := by
  unfold adjust_price_to_tick
  simp only [ge_iff_le]
  split_ifs with h1 h2 h3 h4 h5 h6
  · have hm : (1 : ℤ) ≤ roundHalfEven (p / 1000) :=
      le_roundHalfEven 1 _ (by rw [le_div_iff₀ (by norm_num)]; push_cast; linarith)
    have hm' : (1 : ℚ) ≤ (roundHalfEven (p / 1000) : ℚ) := by exact_mod_cast hm
    exact ⟨fun _ => by linarith, fun _ => by linarith⟩
  · have hm : (1 : ℤ) ≤ roundHalfEven (p / 500) :=
      le_roundHalfEven 1 _ (by rw [le_div_iff₀ (by norm_num)]; push_cast; linarith)
    have hm' : (1 : ℚ) ≤ (roundHalfEven (p / 500) : ℚ) := by exact_mod_cast hm
    exact ⟨fun _ => by linarith, fun _ => by linarith⟩
  · have hm : (1 : ℤ) ≤ roundHalfEven (p / 100) :=
      le_roundHalfEven 1 _ (by rw [le_div_iff₀ (by norm_num)]; push_cast; linarith)
    have hm' : (1 : ℚ) ≤ (roundHalfEven (p / 100) : ℚ) := by exact_mod_cast hm
    exact ⟨fun _ => by linarith, fun _ => by linarith⟩
  · have hm : (1 : ℤ) ≤ roundHalfEven (p / 50) :=
      le_roundHalfEven 1 _ (by rw [le_div_iff₀ (by norm_num)]; push_cast; linarith)
    have hm' : (1 : ℚ) ≤ (roundHalfEven (p / 50) : ℚ) := by exact_mod_cast hm
    exact ⟨fun _ => by linarith, fun _ => by linarith⟩
  · have hm : (1 : ℤ) ≤ roundHalfEven (p / 10) :=
      le_roundHalfEven 1 _ (by rw [le_div_iff₀ (by norm_num)]; push_cast; linarith)
    have hm' : (1 : ℚ) ≤ (roundHalfEven (p / 10) : ℚ) := by exact_mod_cast hm
    exact ⟨fun _ => by linarith, fun _ => by linarith⟩
  · have hm : (1 : ℤ) ≤ roundHalfEven (p / 5) :=
      le_roundHalfEven 1 _ (by rw [le_div_iff₀ (by norm_num)]; push_cast; linarith)
    have hm' : (1 : ℚ) ≤ (roundHalfEven (p / 5) : ℚ) := by exact_mod_cast hm
    exact ⟨fun _ => by linarith, fun _ => by linarith⟩
  · constructor
    · intro hp
      have hm : (0 : ℤ) ≤ roundHalfEven p := le_roundHalfEven 0 p (by exact_mod_cast hp)
      exact_mod_cast hm
    · intro hp
      have habs := abs_roundHalfEven_sub_le p
      rw [abs_le] at habs
      linarith [habs.1]

/-- C6 witness: positivity at the concrete input 3. -/
theorem adjust_price_to_tick_pos_witness : 0 < adjust_price_to_tick 3 :=
  (adjust_price_to_tick_pos 3).2 (by norm_num)

/-- C7: `adjust_price_to_tick` is idempotent — its output is always a fixed
point, even when rounding moves the price to the boundary of the next band. -/
theorem adjust_price_to_tick_idem (p : ℚ) :
    adjust_price_to_tick (adjust_price_to_tick p) = adjust_price_to_tick p := by
  by_cases h1 : p ≥ 2000000
  · have hq : adjust_price_to_tick p = (roundHalfEven (p / 1000) : ℚ) * 1000 := by
      unfold adjust_price_to_tick; rw [if_pos h1]
    have hm : (2000 : ℤ) ≤ roundHalfEven (p / 1000) :=
      le_roundHalfEven 2000 _ (by rw [le_div_iff₀ (by norm_num)]; push_cast; linarith)
    have hm' : (2000 : ℚ) ≤ (roundHalfEven (p / 1000) : ℚ) := by exact_mod_cast hm
    rw [hq]
    exact adjust_fix_b1 _ (by linarith)
  · have h1' : p < 2000000 := lt_of_not_ge h1
    by_cases h2 : p ≥ 1000000
    · have hq : adjust_price_to_tick p = (roundHalfEven (p / 500) : ℚ) * 500 := by
        unfold adjust_price_to_tick; rw [if_neg h1, if_pos h2]
      have hmlo : (2000 : ℤ) ≤ roundHalfEven (p / 500) :=
        le_roundHalfEven 2000 _ (by rw [le_div_iff₀ (by norm_num)]; push_cast; linarith)
      have hmhi : roundHalfEven (p / 500) ≤ 4000 :=
        roundHalfEven_le 4000 _ (by rw [div_le_iff₀ (by norm_num)]; push_cast; linarith)
      have hmlo' : (2000 : ℚ) ≤ (roundHalfEven (p / 500) : ℚ) := by exact_mod_cast hmlo
      have hmhi' : (roundHalfEven (p / 500) : ℚ) ≤ 4000 := by exact_mod_cast hmhi
      rw [hq]
      by_cases hB : (2000000 : ℚ) ≤ (roundHalfEven (p / 500) : ℚ) * 500
      · have hEq : (roundHalfEven (p / 500) : ℚ) * 500 = 2000000 :=
          le_antisymm (by linarith) hB
        rw [hEq]; exact adjust_at_2000000
      · exact adjust_fix_b2 _ (by linarith) (lt_of_not_ge hB)
    · have h2' : p < 1000000 := lt_of_not_ge h2
      by_cases h3 : p ≥ 500000
      · have hq : adjust_price_to_tick p = (roundHalfEven (p / 100) : ℚ) * 100 := by
          unfold adjust_price_to_tick; rw [if_neg h1, if_neg h2, if_pos h3]
        have hmlo : (5000 : ℤ) ≤ roundHalfEven (p / 100) :=
          le_roundHalfEven 5000 _ (by rw [le_div_iff₀ (by norm_num)]; push_cast; linarith)
        have hmhi : roundHalfEven (p / 100) ≤ 10000 :=
          roundHalfEven_le 10000 _ (by rw [div_le_iff₀ (by norm_num)]; push_cast; linarith)
        have hmlo' : (5000 : ℚ) ≤ (roundHalfEven (p / 100) : ℚ) := by exact_mod_cast hmlo
        have hmhi' : (roundHalfEven (p / 100) : ℚ) ≤ 10000 := by exact_mod_cast hmhi
        rw [hq]
        by_cases hB : (1000000 : ℚ) ≤ (roundHalfEven (p / 100) : ℚ) * 100
        · have hEq : (roundHalfEven (p / 100) : ℚ) * 100 = 1000000 :=
            le_antisymm (by linarith) hB
          rw [hEq]; exact adjust_at_1000000
        · exact adjust_fix_b3 _ (by linarith) (lt_of_not_ge hB)
      · have h3' : p < 500000 := lt_of_not_ge h3
        by_cases h4 : p ≥ 100000
        · have hq : adjust_price_to_tick p = (roundHalfEven (p / 50) : ℚ) * 50 := by
            unfold adjust_price_to_tick; rw [if_neg h1, if_neg h2, if_neg h3, if_pos h4]
          have hmlo : (2000 : ℤ) ≤ roundHalfEven (p / 50) :=
            le_roundHalfEven 2000 _ (by rw [le_div_iff₀ (by norm_num)]; push_cast; linarith)
          have hmhi : roundHalfEven (p / 50) ≤ 10000 :=
            roundHalfEven_le 10000 _ (by rw [div_le_iff₀ (by norm_num)]; push_cast; linarith)
          have hmlo' : (2000 : ℚ) ≤ (roundHalfEven (p / 50) : ℚ) := by exact_mod_cast hmlo
          have hmhi' : (roundHalfEven (p / 50) : ℚ) ≤ 10000 := by exact_mod_cast hmhi
          rw [hq]
          by_cases hB : (500000 : ℚ) ≤ (roundHalfEven (p / 50) : ℚ) * 50
          · have hEq : (roundHalfEven (p / 50) : ℚ) * 50 = 500000 :=
              le_antisymm (by linarith) hB
            rw [hEq]; exact adjust_at_500000
          · exact adjust_fix_b4 _ (by linarith) (lt_of_not_ge hB)
        · have h4' : p < 100000 := lt_of_not_ge h4
          by_cases h5 : p ≥ 10000
          · have hq : adjust_price_to_tick p = (roundHalfEven (p / 10) : ℚ) * 10 := by
              unfold adjust_price_to_tick
              rw [if_neg h1, if_neg h2, if_neg h3, if_neg h4, if_pos h5]
            have hmlo : (1000 : ℤ) ≤ roundHalfEven (p / 10) :=
              le_roundHalfEven 1000 _ (by rw [le_div_iff₀ (by norm_num)]; push_cast; linarith)
            have hmhi : roundHalfEven (p / 10) ≤ 10000 :=
              roundHalfEven_le 10000 _ (by rw [div_le_iff₀ (by norm_num)]; push_cast; linarith)
            have hmlo' : (1000 : ℚ) ≤ (roundHalfEven (p / 10) : ℚ) := by exact_mod_cast hmlo
            have hmhi' : (roundHalfEven (p / 10) : ℚ) ≤ 10000 := by exact_mod_cast hmhi
            rw [hq]
            by_cases hB : (100000 : ℚ) ≤ (roundHalfEven (p / 10) : ℚ) * 10
            · have hEq : (roundHalfEven (p / 10) : ℚ) * 10 = 100000 :=
                le_antisymm (by linarith) hB
              rw [hEq]; exact adjust_at_100000
            · exact adjust_fix_b5 _ (by linarith) (lt_of_not_ge hB)
          · have h5' : p < 10000 := lt_of_not_ge h5
            by_cases h6 : p ≥ 1000
            · have hq : adjust_price_to_tick p = (roundHalfEven (p / 5) : ℚ) * 5 := by
                unfold adjust_price_to_tick
                rw [if_neg h1, if_neg h2, if_neg h3, if_neg h4, if_neg h5, if_pos h6]
              have hmlo : (200 : ℤ) ≤ roundHalfEven (p / 5) :=
                le_roundHalfEven 200 _ (by rw [le_div_iff₀ (by norm_num)]; push_cast; linarith)
              have hmhi : roundHalfEven (p / 5) ≤ 2000 :=
                roundHalfEven_le 2000 _ (by rw [div_le_iff₀ (by norm_num)]; push_cast; linarith)
              have hmlo' : (200 : ℚ) ≤ (roundHalfEven (p / 5) : ℚ) := by exact_mod_cast hmlo
              have hmhi' : (roundHalfEven (p / 5) : ℚ) ≤ 2000 := by exact_mod_cast hmhi
              rw [hq]
              by_cases hB : (10000 : ℚ) ≤ (roundHalfEven (p / 5) : ℚ) * 5
              · have hEq : (roundHalfEven (p / 5) : ℚ) * 5 = 10000 :=
                  le_antisymm (by linarith) hB
                rw [hEq]; exact adjust_at_10000
              · exact adjust_fix_b6 _ (by linarith) (lt_of_not_ge hB)
            · have h6' : p < 1000 := lt_of_not_ge h6
              have hq : adjust_price_to_tick p = (roundHalfEven p : ℚ) := by
                unfold adjust_price_to_tick
                rw [if_neg h1, if_neg h2, if_neg h3, if_neg h4, if_neg h5, if_neg h6]
              have hmhi : roundHalfEven p ≤ 1000 :=
                roundHalfEven_le 1000 _ (by push_cast; linarith)
              have hmhi' : (roundHalfEven p : ℚ) ≤ 1000 := by exact_mod_cast hmhi
              rw [hq]
              by_cases hB : (1000 : ℚ) ≤ (roundHalfEven p : ℚ)
              · have hEq : (roundHalfEven p : ℚ) = 1000 := le_antisymm hmhi' hB
                rw [hEq]; exact adjust_at_1000
              · exact adjust_fix_b7 _ (lt_of_not_ge hB)

/-- The mechanical signal returned by `simple_analysis`. -/
inductive Signal where
  | buy_signal : Signal
  | sell_signal : Signal
deriving DecidableEq

/-- Last `n` elements of a list (what a trailing window at the latest bar
sees). -/
def lastN (n : ℕ) (l : List ℚ) : List ℚ :=
  l.drop (l.length - n)

/-- Value at `iloc[-1]` of `series.rolling(window=n).mean()`: the mean of
the last `n` elements when the series has at least `n` elements, NaN
(modelled `none`) otherwise. -/
def trailingMean (n : ℕ) (closes : List ℚ) : Option ℚ :=
  if closes.length < n then none else some ((lastN n closes).sum / n)

/-- Python float `>` where either operand may be NaN: any comparison with
NaN is false. -/
def nanGt : Option ℚ → Option ℚ → Bool
  | some a, some b => decide (b < a)
  | _, _ => false

/-- Embedding of `simple_analysis` (auto_trader.py): compares the trailing
5-bar and 20-bar moving averages of the close column at the latest bar.
`iloc[-1]` raises `IndexError` on an empty frame, hence the `Except`. -/
def simple_analysis (closes : List ℚ) : Except Unit Signal :=
  if closes.isEmpty then Except.error ()
  else if nanGt (trailingMean 5 closes) (trailingMean 20 closes) then
    Except.ok Signal.buy_signal
  else Except.ok Signal.sell_signal

/-- Does `needle` start `hay`? (helper for Python's `in` on strings). -/
def startsWithChars : List Char → List Char → Bool
  | [], _ => true
  | _ :: _, [] => false
  | n :: ns, h :: hs => (n = h) && startsWithChars ns hs

/-- Substring occurrence on character lists. -/
def containsChars (needle : List Char) : List Char → Bool
  | [] => startsWithChars needle []
  | h :: hs => startsWithChars needle (h :: hs) || containsChars needle hs

/-- Python's `needle in hay` on strings. -/
def pyContains (hay needle : String) : Bool :=
  containsChars needle.toList hay.toList

/-- Python's `str.lower()` (ASCII case folding; the strings involved are
ASCII and Korean, on which this matches CPython). -/
def pyLower (s : String) : String :=
  String.mk (s.toList.map Char.toLower)

example : pyContains (pyLower "Buy now") "buy" = true := by decide
example : pyContains "AI 의견 조회 실패" "매수" = false := by decide
example : pyContains (pyLower "AI 의견 조회 실패") "sell" = false := by decide

/-- The action finally taken by a cycle. -/
inductive TradeAction where
  | BUY : TradeAction
  | SELL : TradeAction
deriving DecidableEq

/-- The branch structure of `trade_once`'s decision (auto_trader.py lines
198–216): buy markers or a buy signal first, else sell markers or a sell
signal, else nothing. -/
def reconcile (signal : Signal) (ai_opinion : String) : Option TradeAction :=
  if pyContains ai_opinion "매수" || pyContains (pyLower ai_opinion) "buy"
      || decide (signal = Signal.buy_signal) then
    some TradeAction.BUY
  else if pyContains ai_opinion "매도" || pyContains (pyLower ai_opinion) "sell"
      || decide (signal = Signal.sell_signal) then
    some TradeAction.SELL
  else none

/-- A row of the sqlite `trade_log` table (timestamp column omitted: it is
wall-clock data with no bearing on the claims). -/
structure TradeRecord where
  action : TradeAction
  market : String
  volume : ℚ
  price : ℚ
  reason : String
deriving DecidableEq

/-- Outcome of one Python call: a value, or a raised exception. -/
inductive PyResult (α : Type) where
  | ok : α → PyResult α
  | exn : PyResult α
deriving DecidableEq

/-- Behaviour of every external collaborator during one cycle of
`trade_once`. -/
structure Collab where
  /-- `init_db`: sqlite connection and table creation. -/
  initDb : PyResult Unit
  /-- `pyupbit.get_ohlcv` via `get_historical_data`: may raise (no
  try/except there), return `None`, or return a frame of closes. -/
  ohlcv : PyResult (Option (List ℚ))
  /-- `pyupbit.get_current_price` inside `get_current_price`. -/
  curPrice : PyResult (Option ℚ)
  /-- The OpenAI call inside `get_investment_opinion`. -/
  opinion : PyResult (Option String)
  /-- `upbit.buy_limit_order` inside `buy_coin`; the Bool is the
  truthiness of the returned order object. -/
  buyOrder : PyResult Bool
  /-- `upbit.sell_limit_order` inside `sell_coin`. -/
  sellOrder : PyResult Bool
  /-- `insert_trade_log`: the sqlite INSERT and commit. -/
  insertLog : PyResult Unit

/-- Embedding of `get_current_price`: its try/except converts a raise into
`None`. -/
def get_current_price (r : PyResult (Option ℚ)) : Option ℚ :=
  match r with
  | PyResult.ok p => p
  | PyResult.exn => none

/-- Embedding of `buy_coin`: its try/except converts a raise into `None`,
whose truthiness is false. -/
def buy_coin (r : PyResult Bool) : Bool :=
  match r with
  | PyResult.ok b => b
  | PyResult.exn => false

/-- Embedding of `sell_coin`: same failure containment as `buy_coin`. -/
def sell_coin (r : PyResult Bool) : Bool :=
  match r with
  | PyResult.ok b => b
  | PyResult.exn => false

/-- Embedding of `get_investment_opinion`: its try/except converts a raise
into `None`. -/
def get_investment_opinion (r : PyResult (Option String)) : Option String :=
  match r with
  | PyResult.ok o => o
  | PyResult.exn => none

/-- What one run of `trade_once` did, as far as its environment can tell. -/
structure CycleTrace where
  /-- Rows appended to `trade_log` during the cycle. -/
  logs : List TradeRecord
  /-- `none` if no limit-order call was made; `some b` if one was made and
  `b` is the truthiness of its result. -/
  submitted : Option Bool
  /-- Which decision branch fired, if any. -/
  action : Option TradeAction
  /-- Whether an exception is propagating at this point. -/
  raised : Bool
deriving DecidableEq

/-- Body of `trade_once`'s try block, line by line. -/
def tradeOnceBody (c : Collab) (market : String) : CycleTrace :=
  match c.initDb with
  | PyResult.exn => ⟨[], none, none, true⟩
  | PyResult.ok _ =>
    match c.ohlcv with
    | PyResult.exn => ⟨[], none, none, true⟩
    | PyResult.ok df =>
      match df, get_current_price c.curPrice with
      | none, _ => ⟨[], none, none, false⟩
      | some _, none => ⟨[], none, none, false⟩
      | some closes, some current_price =>
        match simple_analysis closes with
        | Except.error _ => ⟨[], none, none, true⟩
        | Except.ok signal =>
          let ai_opinion :=
            match get_investment_opinion c.opinion with
            | none => "AI 의견 조회 실패"
            | some o => o
          match reconcile signal ai_opinion with
          | some TradeAction.BUY =>
            let buy_price := adjust_price_to_tick (current_price * (99/100))
            if buy_coin c.buyOrder then
              match c.insertLog with
              | PyResult.exn => ⟨[], some true, some TradeAction.BUY, true⟩
              | PyResult.ok _ =>
                ⟨[⟨TradeAction.BUY, market, 1/10000, buy_price,
                    "AI 의견/이평 시그널: 매수. Reason: " ++ ai_opinion⟩],
                  some true, some TradeAction.BUY, false⟩
            else ⟨[], some false, some TradeAction.BUY, false⟩
          | some TradeAction.SELL =>
            let sell_price := adjust_price_to_tick (current_price * (101/100))
            if sell_coin c.sellOrder then
              match c.insertLog with
              | PyResult.exn => ⟨[], some true, some TradeAction.SELL, true⟩
              | PyResult.ok _ =>
                ⟨[⟨TradeAction.SELL, market, 1/10000, sell_price,
                    "AI 의견/이평 시그널: 매도. Reason: " ++ ai_opinion⟩],
                  some true, some TradeAction.SELL, false⟩
            else ⟨[], some false, some TradeAction.SELL, false⟩
          | none => ⟨[], none, none, false⟩

/-- Embedding of `trade_once`: the body wrapped in
`try: ... except Exception as e: print(...)`, which absorbs any raise. -/
def trade_once (c : Collab) (market : String) : CycleTrace :=
  let t := tradeOnceBody c market
  if t.raised then ⟨t.logs, t.submitted, t.action, false⟩ else t

/-- C3: with at least 20 bars, `simple_analysis` returns the buy signal
exactly when the trailing 5-bar mean of closes strictly exceeds the
trailing 20-bar mean at the latest bar, and the sell signal exactly
otherwise — in particular equal means yield the sell signal. -/
theorem simple_analysis_spec (closes : List ℚ) (h : 20 ≤ closes.length) :
    (simple_analysis closes = Except.ok Signal.buy_signal ↔
      (lastN 20 closes).sum / 20 < (lastN 5 closes).sum / 5) ∧
    (simple_analysis closes = Except.ok Signal.sell_signal ↔
      (lastN 5 closes).sum / 5 ≤ (lastN 20 closes).sum / 20) := by
  have h5 : trailingMean 5 closes = some ((lastN 5 closes).sum / 5) := by
    unfold trailingMean
    rw [if_neg (by omega)]
    norm_num
  have h20 : trailingMean 20 closes = some ((lastN 20 closes).sum / 20) := by
    unfold trailingMean
    rw [if_neg (by omega)]
    norm_num
  have hne : ¬ closes.isEmpty = true := by
    simp only [List.isEmpty_iff_length_eq_zero]
    omega
  unfold simple_analysis
  rw [if_neg hne, h5, h20]
  by_cases hab : (lastN 20 closes).sum / 20 < (lastN 5 closes).sum / 5
  · simp [nanGt, hab, not_le.mpr hab]
  · simp [nanGt, hab, not_lt.mp hab]

/-- Witness series for the analyzer claims: fifteen flat bars then five
higher ones. -/
def wCloses : List ℚ :=
  [0, 0, 0, 0, 0, 0, 0, 0, 0, 0, 0, 0, 0, 0, 0, 1, 1, 1, 1, 1]

/-- C3 witness: the analyzer fires a buy signal on `wCloses`. -/
theorem simple_analysis_spec_witness :
    simple_analysis wCloses = Except.ok Signal.buy_signal := by
  refine (simple_analysis_spec wCloses (by decide)).1.mpr ?_
  have e5 : lastN 5 wCloses = [1, 1, 1, 1, 1] := rfl
  have e20 : lastN 20 wCloses = wCloses := rfl
  rw [e5, e20]
  norm_num [wCloses]

/-- C10: with between 1 and 19 bars, `simple_analysis` neither fails nor
returns an undefined value — the 20-bar mean at the latest bar is NaN, the
strict comparison is false, and the result is the sell signal. -/
theorem simple_analysis_short_series (closes : List ℚ) (h1 : 1 ≤ closes.length)
    (h2 : closes.length < 20) :
    trailingMean 20 closes = none ∧
    simple_analysis closes = Except.ok Signal.sell_signal := by
  have h20 : trailingMean 20 closes = none := by
    unfold trailingMean
    rw [if_pos h2]
  refine ⟨h20, ?_⟩
  have hne : ¬ closes.isEmpty = true := by
    simp only [List.isEmpty_iff_length_eq_zero]
    omega
  unfold simple_analysis
  rw [if_neg hne, h20]
  cases trailingMean 5 closes <;> simp [nanGt]

/-- C10 witness: a single bar yields the sell signal without failing. -/
theorem simple_analysis_short_series_witness :
    simple_analysis [1] = Except.ok Signal.sell_signal :=
  (simple_analysis_short_series [1] (by decide) (by decide)).2

/-- C9: `trade_once` returns normally for every collaborator behaviour,
including collaborators that raise — its surrounding try/except absorbs
every exception raised inside the cycle. -/
theorem trade_once_never_raises (c : Collab) (market : String) :
    (trade_once c market).raised = false := by
  by_cases h : (tradeOnceBody c market).raised = true <;>
    simp [trade_once, h]

/-- C2: advice containing a buy marker and a sell marker reconciles to BUY
for every signal, because the buy branch is evaluated first. -/
theorem reconcile_buy_priority (advice : String) (signal : Signal)
    (hbuy : (pyContains advice "매수" || pyContains (pyLower advice) "buy") = true)
    (_hsell : (pyContains advice "매도" || pyContains (pyLower advice) "sell") = true) :
    reconcile signal advice = some TradeAction.BUY := by
  unfold reconcile
  cases hb1 : pyContains advice "매수"
  · cases hb2 : pyContains (pyLower advice) "buy"
    · rw [hb1, hb2] at hbuy
      exact absurd hbuy (by simp)
    · simp [hb1, hb2]
  · simp [hb1]

/-- C2 witness: advice naming both directions reconciles to BUY even on a
sell signal. -/
theorem reconcile_buy_priority_witness :
    reconcile Signal.sell_signal "Sell it all... or Buy?" = some TradeAction.BUY :=
  reconcile_buy_priority "Sell it all... or Buy?" Signal.sell_signal
    (by decide) (by decide)

/-- The catch in `trade_once` does not change which rows were appended. -/
theorem trade_once_logs (c : Collab) (m : String) :
    (trade_once c m).logs = (tradeOnceBody c m).logs := by
  by_cases h : (tradeOnceBody c m).raised = true <;> simp [trade_once, h]

/-- The catch in `trade_once` does not change the submission observation. -/
theorem trade_once_submitted (c : Collab) (m : String) :
    (trade_once c m).submitted = (tradeOnceBody c m).submitted := by
  by_cases h : (tradeOnceBody c m).raised = true <;> simp [trade_once, h]

/-- The catch in `trade_once` does not change which branch fired. -/
theorem trade_once_action (c : Collab) (m : String) :
    (trade_once c m).action = (tradeOnceBody c m).action := by
  by_cases h : (tradeOnceBody c m).raised = true <;> simp [trade_once, h]

/-- The action dictated by the mechanical signal alone. -/
def signalAction : Signal → TradeAction
  | Signal.buy_signal => TradeAction.BUY
  | Signal.sell_signal => TradeAction.SELL

/-- The fallback text substituted for absent advice contains no intent
marker, so reconciliation follows the signal. -/
theorem reconcile_fallback (signal : Signal) :
    reconcile signal "AI 의견 조회 실패" = some (signalAction signal) := by
  cases signal <;> rfl

/-- C4: in a cycle that reaches the decision with absent advice (the
recommendation call failed), the action taken equals the mechanical
signal's action — BUY on a buy signal, SELL on a sell signal — and an
action always fires. -/
theorem trade_once_advice_absent (c : Collab) (market : String)
    (closes : List ℚ) (price : ℚ) (signal : Signal)
    (hdb : c.initDb = PyResult.ok ())
    (hdf : c.ohlcv = PyResult.ok (some closes))
    (hcp : get_current_price c.curPrice = some price)
    (hsig : simple_analysis closes = Except.ok signal)
    (hop : get_investment_opinion c.opinion = none) :
    (trade_once c market).action = some (signalAction signal) := by
  rw [trade_once_action]
  cases signal
  · simp only [tradeOnceBody, hdb, hdf, hcp, hsig, hop, reconcile_fallback,
      signalAction]
    cases hb : buy_coin c.buyOrder
    · simp [hb]
    · cases hil : c.insertLog <;> simp [hb, hil]
  · simp only [tradeOnceBody, hdb, hdf, hcp, hsig, hop, reconcile_fallback,
      signalAction]
    cases hb : sell_coin c.sellOrder
    · simp [hb]
    · cases hil : c.insertLog <;> simp [hb, hil]

/-- Collaborator behaviour for the C4 witness: advice call raises,
everything else succeeds. -/
def absentAdviceCollab : Collab :=
  ⟨PyResult.ok (), PyResult.ok (some [1]), PyResult.ok (some 100),
   PyResult.exn, PyResult.ok true, PyResult.ok true, PyResult.ok ()⟩

/-- C4 witness: with one flat bar the signal is sell, and the cycle sells. -/
theorem trade_once_advice_absent_witness :
    (trade_once absentAdviceCollab "KRW-BTC").action = some TradeAction.SELL :=
  trade_once_advice_absent absentAdviceCollab "KRW-BTC" [1] 100 Signal.sell_signal
    rfl rfl rfl (by rfl) rfl

/-- C8: when fetching fails — the OHLCV call raises or returns `None`, or
the current price comes back `None` — the cycle ends with no order call,
no appended record and no action. -/
theorem trade_once_fetch_failure (c : Collab) (market : String)
    (h : c.ohlcv = PyResult.exn ∨ c.ohlcv = PyResult.ok none ∨
         get_current_price c.curPrice = none) :
    (trade_once c market).submitted = none ∧
    (trade_once c market).logs = [] ∧
    (trade_once c market).action = none := by
  rw [trade_once_submitted, trade_once_logs, trade_once_action]
  cases hdb : c.initDb
  case ok u =>
    rcases h with h | h | h
    · simp [tradeOnceBody, hdb, h]
    · simp [tradeOnceBody, hdb, h]
    · cases hdf : c.ohlcv
      case ok df =>
        cases df
        · simp [tradeOnceBody, hdb, hdf]
        · simp [tradeOnceBody, hdb, hdf, h]
      case exn => simp [tradeOnceBody, hdb, hdf]
  case exn => simp [tradeOnceBody, hdb]

/-- Collaborator behaviour for the C8 witness: the OHLCV fetch returns
`None`. -/
def fetchFailCollab : Collab :=
  ⟨PyResult.ok (), PyResult.ok none, PyResult.ok (some 100),
   PyResult.ok (some "buy"), PyResult.ok true, PyResult.ok true, PyResult.ok ()⟩

/-- C8 witness: the fetch-failure cycle submits nothing and logs nothing. -/
theorem trade_once_fetch_failure_witness :
    (trade_once fetchFailCollab "KRW-BTC").submitted = none ∧
    (trade_once fetchFailCollab "KRW-BTC").logs = [] ∧
    (trade_once fetchFailCollab "KRW-BTC").action = none :=
  trade_once_fetch_failure fetchFailCollab "KRW-BTC" (Or.inr (Or.inl rfl))

/-- Collaborator behaviour refuting C1 as stated: a truthy order result
followed by a raising sqlite INSERT. -/
def persistFailCollab : Collab :=
  ⟨PyResult.ok (), PyResult.ok (some [1]), PyResult.ok (some 100),
   PyResult.ok (some "buy"), PyResult.ok true, PyResult.ok true, PyResult.exn⟩

/-- C1 counterexample: the submission succeeded (truthy order) yet no
TradeRecord was appended, because the log INSERT itself raised. -/
theorem trade_log_iff_submit_cex :
    (trade_once persistFailCollab "KRW-BTC").submitted = some true ∧
    (trade_once persistFailCollab "KRW-BTC").logs = [] :=
  ⟨rfl, rfl⟩

/-- C1 amended: per cycle, a failed or never-attempted submission appends
no record, any appended record implies a truthy submission, and a truthy
submission appends exactly one record provided the log INSERT does not
itself raise (if it raises, no record is appended). -/
theorem trade_log_iff_submit (c : Collab) (market : String) :
    ((trade_once c market).submitted ≠ some true → (trade_once c market).logs = []) ∧
    ((trade_once c market).logs ≠ [] → (trade_once c market).submitted = some true) ∧
    ((trade_once c market).submitted = some true → c.insertLog = PyResult.ok () →
      (trade_once c market).logs.length = 1) ∧
    ((trade_once c market).submitted = some true → c.insertLog = PyResult.exn →
      (trade_once c market).logs = []) := by
  rw [trade_once_submitted, trade_once_logs]
  simp only [tradeOnceBody]
  repeat' split
  all_goals simp_all

/-- Collaborator behaviour for the C1 witness: everything succeeds and the
advice says buy. -/
def okCollab : Collab :=
  ⟨PyResult.ok (), PyResult.ok (some [1]), PyResult.ok (some 100),
   PyResult.ok (some "buy"), PyResult.ok true, PyResult.ok true, PyResult.ok ()⟩

/-- C1 witness: the all-success buy cycle appends exactly one record. -/
theorem trade_log_iff_submit_witness :
    (trade_once okCollab "KRW-BTC").logs.length = 1 :=
  (trade_log_iff_submit okCollab "KRW-BTC").2.2.1 (by rfl) rfl

end AutoTrader
